import Mathlib

/-
Verification of the gtsfm data-association core and adjacent utilities.

Shallow embedding conventions:
  * Python floats are modelled as rationals; pixel coordinates, reprojection
    errors and 3D points are rational.
  * gtsam / numpy containers become Lean lists; Python dicts become
    association lists in insertion order.
  * Python exceptions (ZeroDivisionError, numpy IndexError, RuntimeError)
    become Except.error values.
  * Functions of this repository that are imported by the embedded modules
    but whose own source is not part of the repository snapshot are modelled
    from the specification; each such definition carries a doc comment
    starting with "Modelled from the spec:".
-/

namespace GtsfmVerify

/-- gtsam SfmTrack as consumed by data_assoc.py: a fitted 3D point together
with its 2D measurements, each a camera index with pixel coordinates. -/
structure SfmTrack where
  point3 : ℚ × ℚ × ℚ
  measurements : List (Nat × (ℚ × ℚ))
deriving DecidableEq

/-- gtsam SfmTrack.number_measurements. -/
def SfmTrack.number_measurements (t : SfmTrack) : Nat :=
  t.measurements.length

/-- gtsfm SfmTrack2d: a 2D feature track, a list of measurements, each an
image index with the observed pixel coordinates. -/
structure SfmTrack2d where
  measurements : List (Nat × (ℚ × ℚ))
deriving DecidableEq

/-- gtsfm SfmTrack2d.number_measurements. -/
def SfmTrack2d.number_measurements (t : SfmTrack2d) : Nat :=
  t.measurements.length

/-- Triangulation mode enum (spec section 6: enum containing DIRECT and
RANSAC). -/
inductive TriangulationParam where
  | DIRECT
  | RANSAC
deriving DecidableEq

/-- data_assoc.py DataAssociation NamedTuple (lines 32-46). -/
structure DataAssociation where
  reproj_error_thresh : ℚ
  min_track_len : Nat
  mode : TriangulationParam
  num_ransac_hypotheses : Option Nat := none

/-- data_assoc.py DataAssociation.__validate_track (lines 48-50): the track
is valid when it is not None and has at least min_track_len measurements. -/
def DataAssociation.validate_track (da : DataAssociation)
    (sfm_track : Option SfmTrack) : Bool :=
  match sfm_track with
  | none => false
  | some t => decide (da.min_track_len ≤ t.number_measurements)

/-- Accumulator of the per-track loop of DataAssociation.run
(data_assoc.py lines 87-102): the cheirality-exception counter, the
accepted / rejected per-track average reprojection errors, and the tracks
added to the SfmData object so far. -/
structure AssocState where
  num_tracks_w_cheirality_exceptions : Nat
  per_accepted_track_avg_errors : List ℚ
  per_rejected_track_avg_errors : List ℚ
  tracks : List SfmTrack
deriving DecidableEq

/-- Initial accumulator of the run loop. -/
def initAssocState : AssocState :=
  { num_tracks_w_cheirality_exceptions := 0
    per_accepted_track_avg_errors := []
    per_rejected_track_avg_errors := []
    tracks := [] }

/-- One iteration of the loop of DataAssociation.run (data_assoc.py lines
92-102): triangulate the 2D track, count a cheirality failure, then either
add the track and record its error as accepted, or record the error as
rejected. The triangulation routine (Point3dInitializer.triangulate, whose
module is not part of the snapshot) is the parameter tri, returning the
optional triangulated track, the average reprojection error, and the
cheirality-failure flag. -/
def DataAssociation.stepTrack (da : DataAssociation)
    (tri : SfmTrack2d → Option SfmTrack × ℚ × Bool)
    (st : AssocState) (track_2d : SfmTrack2d) : AssocState :=
  let r := tri track_2d
  let sfm_track := r.1
  let avg_track_reproj_error := r.2.1
  let is_cheirality_failure := r.2.2
  let st1 :=
    if is_cheirality_failure then
      { st with num_tracks_w_cheirality_exceptions :=
          st.num_tracks_w_cheirality_exceptions + 1 }
    else st
  match sfm_track with
  | some t =>
      if da.validate_track (some t) then
        { st1 with
            tracks := st1.tracks ++ [t]
            per_accepted_track_avg_errors :=
              st1.per_accepted_track_avg_errors ++ [avg_track_reproj_error] }
      else
        { st1 with per_rejected_track_avg_errors :=
            st1.per_rejected_track_avg_errors ++ [avg_track_reproj_error] }
  | none =>
      { st1 with per_rejected_track_avg_errors :=
          st1.per_rejected_track_avg_errors ++ [avg_track_reproj_error] }

/-- The final state of the per-track loop of DataAssociation.run over the
whole 2D track list. -/
def DataAssociation.finalAssoc (da : DataAssociation)
    (tri : SfmTrack2d → Option SfmTrack × ℚ × Bool)
    (tracks_2d : List SfmTrack2d) : AssocState :=
  tracks_2d.foldl (da.stepTrack tri) initAssocState

/-- Python exceptions raised by DataAssociation.run, modelled as error
values: the ZeroDivisionError from dividing by len(tracks_2d) (line 105),
the numpy IndexError from an out-of-range index into
expected_camera_indices, and the RuntimeError "Some cameras must have been
dropped" (line 114). -/
inductive RunError where
  | zeroDivisionError
  | indexError
  | camerasDroppedError
deriving DecidableEq

/-- numpy indexing semantics for expected_camera_indices = np.arange(N)
(data_assoc.py lines 110-113): an index i is valid iff -N ≤ i < N, a
negative index reads entry N + i, and entry j of np.arange(N) holds j. -/
def arangeIndex (N : Nat) (i : Int) : Except RunError Int :=
  if 0 ≤ i then
    if i < (N : Int) then .ok i else .error .indexError
  else
    if -(N : Int) ≤ i then .ok ((N : Int) + i) else .error .indexError

/-- Camera loop of DataAssociation.run (data_assoc.py lines 112-115): for
each dict entry (i, cam) in insertion order, compare i against
expected_camera_indices[i]; on mismatch raise RuntimeError, otherwise add
the camera. -/
def addCamerasGo {Cam : Type} (N : Nat) :
    List Cam → List (Int × Cam) → Except RunError (List Cam)
  | acc, [] => .ok acc
  | acc, (i, cam) :: rest =>
      match arangeIndex N i with
      | .error e => .error e
      | .ok e =>
          if i ≠ e then .error .camerasDroppedError
          else addCamerasGo N (acc ++ [cam]) rest

/-- Camera handling of DataAssociation.run (data_assoc.py lines 108-115),
over the camera dict rendered as an association list in insertion order. -/
def addCameras {Cam : Type} (cameras : List (Int × Cam)) :
    Except RunError (List Cam) :=
  addCamerasGo cameras.length [] cameras

/-- gtsam SfmData as assembled by DataAssociation.run: the added cameras
and the added tracks. -/
structure SfmData (Cam : Type) where
  cameras : List Cam
  tracks : List SfmTrack
deriving DecidableEq

/-- gtsam SfmData.number_tracks. -/
def SfmData.number_tracks {Cam : Type} (d : SfmData Cam) : Nat :=
  d.tracks.length

/-- Insertion of an element into a list sorted by a Boolean comparison;
structurally recursive so that the kernel can evaluate it on concrete
inputs. -/
def insertSorted {α : Type} (le : α → α → Bool) (a : α) : List α → List α
  | [] => [a]
  | b :: l => if le a b then a :: b :: l else b :: insertSorted le a l

/-- Insertion sort by a Boolean comparison, standing in for numpy sorting
(numpy's default sort is not guaranteed stable; this one is stable, ties
kept in input order). -/
def insertionSort {α : Type} (le : α → α → Bool) : List α → List α
  | [] => []
  | a :: l => insertSorted le a (insertionSort le l)

/-- Arithmetic mean of a rational list, as np.mean; np.mean of an empty
array is NaN in numpy, modelled here as 0, a value no claim depends on. -/
def listMean (xs : List ℚ) : ℚ :=
  if xs.length = 0 then 0 else xs.sum / xs.length

/-- Median of a rational list, as np.median: the middle element of the
sorted list, or the average of the two middle elements for even length;
np.median of an empty array is NaN in numpy, modelled here as 0. -/
def listMedian (xs : List ℚ) : ℚ :=
  let s := insertionSort (fun a b => decide (a ≤ b)) xs
  let n := xs.length
  if n = 0 then 0
  else if n % 2 = 1 then s.getD (n / 2) 0
  else (s.getD (n / 2 - 1) 0 + s.getD (n / 2) 0) / 2

/-- Round to the nearest integer with halves going to the even neighbour,
the rounding used by np.round. -/
def roundHalfEven (q : ℚ) : Int :=
  let f := ⌊q⌋
  let r := q - f
  if r < 1 / 2 then f
  else if 1 / 2 < r then f + 1
  else if f % 2 = 0 then f else f + 1

/-- np.round(x, 3): round to three decimal places, halves to even. -/
def np_round3 (q : ℚ) : ℚ :=
  (roundHalfEven (q * 1000) : ℚ) / 1000

/-- Modelled from the spec: SfmResult.get_track_length_statistics
(data_assoc.py line 117; gtsfm/common/sfm_result.py is not part of the
snapshot). Per spec section 4.3 the aggregates over the accepted tracks are
their mean length, their median length, and the array of lengths feeding
the length histogram. -/
def get_track_length_statistics (tracks : List SfmTrack) :
    ℚ × ℚ × List Nat :=
  let track_lengths_3d := tracks.map SfmTrack.number_measurements
  (listMean (track_lengths_3d.map (fun n : Nat => (n : ℚ))),
   listMedian (track_lengths_3d.map (fun n : Nat => (n : ℚ))),
   track_lengths_3d)

/-- Values stored in the data_assoc_metrics dict: rounded scalars, integer
counts, lists of per-track errors, and the raw 3D point list. -/
inductive MetricValue where
  | num (q : ℚ)
  | count (n : Nat)
  | qlist (l : List ℚ)
  | points (l : List (ℚ × ℚ × ℚ))
deriving DecidableEq

/-- The data_assoc_metrics dict, as an association list in insertion
order. -/
abbrev Metrics : Type := List (String × MetricValue)

/-- data_assoc.py lines 122-143: the data_assoc_metrics dict literal. -/
def mkMetrics (mean_2d_track_length : ℚ) (accepted_tracks_ratio : ℚ)
    (track_cheirality_failure_ratio : ℚ) (st : AssocState) : Metrics :=
  let stats := get_track_length_statistics st.tracks
  let track_lengths_3d := stats.2.2
  let points_3d := st.tracks.map SfmTrack.point3
  [("mean_2d_track_length", .num (np_round3 mean_2d_track_length)),
   ("accepted_tracks_ratio", .num (np_round3 accepted_tracks_ratio)),
   ("track_cheirality_failure_ratio",
     .num (np_round3 track_cheirality_failure_ratio)),
   ("num_accepted_tracks", .count st.tracks.length),
   ("mean_3d_track_length", .num (np_round3 stats.1)),
   ("median_3d_track_length", .num stats.2.1),
   ("num_len_2_tracks", .count (track_lengths_3d.count 2)),
   ("num_len_3_tracks", .count (track_lengths_3d.count 3)),
   ("num_len_4_tracks", .count (track_lengths_3d.count 4)),
   ("num_len_5_tracks", .count (track_lengths_3d.count 5)),
   ("num_len_6_tracks", .count (track_lengths_3d.count 6)),
   ("num_len_7_tracks", .count (track_lengths_3d.count 7)),
   ("num_len_8_tracks", .count (track_lengths_3d.count 8)),
   ("num_len_9_tracks", .count (track_lengths_3d.count 9)),
   ("num_len_10_tracks", .count (track_lengths_3d.count 10)),
   ("per_rejected_track_avg_errors", .qlist st.per_rejected_track_avg_errors),
   ("per_accepted_track_avg_errors", .qlist st.per_accepted_track_avg_errors),
   ("points_3d", .points points_3d)]

/-- data_assoc.py lines 70-145: the body of DataAssociation.run after the
2D tracks have been formed (they enter as the parameter tracks_2d; the
track builder itself is embedded separately). Triangulation is the
parameter tri. The unguarded divisions by len(tracks_2d) at lines 105-106
raise ZeroDivisionError in Python when the track list is empty; they and
the camera-index errors of lines 112-114 are modelled as Except.error. -/
def DataAssociation.runOnTracks {Cam : Type} (da : DataAssociation)
    (tri : SfmTrack2d → Option SfmTrack × ℚ × Bool)
    (cameras : List (Int × Cam)) (tracks_2d : List SfmTrack2d) :
    Except RunError (SfmData Cam × Metrics) :=
  let num_tracks_2d := tracks_2d.length
  let mean_2d_track_length :=
    listMean ((tracks_2d.map SfmTrack2d.number_measurements).map
      (fun n : Nat => (n : ℚ)))
  let st := da.finalAssoc tri tracks_2d
  let num_accepted_tracks := st.tracks.length
  if num_tracks_2d = 0 then .error .zeroDivisionError
  else
    let accepted_tracks_ratio : ℚ :=
      (num_accepted_tracks : ℚ) / (num_tracks_2d : ℚ)
    let track_cheirality_failure_ratio : ℚ :=
      (st.num_tracks_w_cheirality_exceptions : ℚ) / (num_tracks_2d : ℚ)
    match addCameras cameras with
    | .error e => .error e
    | .ok cams =>
        .ok (⟨cams, st.tracks⟩,
          mkMetrics mean_2d_track_length accepted_tracks_ratio
            track_cheirality_failure_ratio st)

/-- gtsfm Keypoints: per-image 2D coordinates with optional per-keypoint
responses (gtsfm/common/keypoints.py is not part of the snapshot; the shape
follows spec section 3: ordered coordinates plus optional
response/confidence). -/
structure Keypoints where
  coordinates : List (ℚ × ℚ)
  responses : Option (List ℚ) := none
deriving DecidableEq

/-- Empty Keypoints value, used as an out-of-range lookup default. -/
def emptyKeypoints : Keypoints :=
  { coordinates := [], responses := none }

/-- Node of the track-builder graph: an (image index, keypoint index)
pair. -/
abbrev TrackNode := Nat × Nat

/-- Merge step of the union-find over components: union the components of
the two endpoint nodes of one correspondence edge, creating singleton
components for unseen nodes. -/
def addEdge (comps : List (List TrackNode)) (a b : TrackNode) :
    List (List TrackNode) :=
  let ca := match comps.find? (fun c => decide (a ∈ c)) with
    | some c => c
    | none => [a]
  let comps1 := comps.filter (fun c => !decide (a ∈ c))
  if b ∈ ca then ca :: comps1
  else
    let cb := match comps1.find? (fun c => decide (b ∈ c)) with
      | some c => c
      | none => [b]
    let comps2 := comps1.filter (fun c => !decide (b ∈ c))
    (ca ++ cb) :: comps2

/-- Correspondence edges: each index pair (k1, k2) stored under the image
pair (i1, i2) links node (i1, k1) to node (i2, k2). -/
def corrEdges (corr_idxs_dict : List ((Nat × Nat) × List (Nat × Nat))) :
    List (TrackNode × TrackNode) :=
  corr_idxs_dict.flatMap (fun e =>
    e.2.map (fun kk => ((e.1.1, kk.1), (e.1.2, kk.2))))

/-- Connected components of the correspondence graph, built by folding the
union step over all edges in input order. -/
def trackComponents
    (corr_idxs_dict : List ((Nat × Nat) × List (Nat × Nat))) :
    List (List TrackNode) :=
  (corrEdges corr_idxs_dict).foldl (fun comps e => addEdge comps e.1 e.2) []

/-- Measurement built from a component node: the image index paired with
the coordinates of the referenced keypoint. -/
def nodeMeasurement (keypoints_list : List Keypoints) (nk : TrackNode) :
    Nat × (ℚ × ℚ) :=
  (nk.1, ((keypoints_list.getD nk.1 emptyKeypoints).coordinates.getD nk.2 (0, 0)))

/-- Modelled from the spec: SfmTrack2d.generate_tracks_from_pairwise_matches
(data_assoc.py line 69; gtsfm/common/sfm_track.py is not part of the
snapshot). Spec section 4.1: union-find connected components over
(image, keypoint-index) nodes, one component per candidate track; a
component containing two nodes that share an image index is rejected
outright and dropped from the output. -/
def generate_tracks_from_pairwise_matches
    (corr_idxs_dict : List ((Nat × Nat) × List (Nat × Nat)))
    (keypoints_list : List Keypoints) : List SfmTrack2d :=
  (trackComponents corr_idxs_dict).filterMap (fun c =>
    if (c.map Prod.fst).Nodup then
      some ⟨c.map (nodeMeasurement keypoints_list)⟩
    else none)

/-- Outcome of the triangulation geometry for one track: the fitted track
if any (none for degenerate geometry or threshold rejection), the average
reprojection error, and whether the fitted point fell behind an observing
camera. -/
structure TriOutcome where
  fitted : Option SfmTrack
  avg_error : ℚ
  cheirality_failure : Bool

/-- Modelled from the spec: Point3dInitializer.triangulate
(gtsfm/data_association/point3d_initializer.py is not part of the
snapshot). Spec section 4.2: on a cheirality failure the result is treated
as rejected, i.e. the returned track is none and the flag is true, but the
computed average reprojection error is still reported; otherwise the
fitted result and its error are returned with the flag false. The
geometric computation itself is the parameter geom. -/
def specTriangulate (geom : SfmTrack2d → TriOutcome)
    (track_2d : SfmTrack2d) : Option SfmTrack × ℚ × Bool :=
  let o := geom track_2d
  if o.cheirality_failure then (none, o.avg_error, true)
  else (o.fitted, o.avg_error, false)

/-- data_assoc.py DataAssociation.run (lines 52-145): build the 2D tracks
from the pairwise correspondences, then run the triangulation loop, the
ratio computations, the camera loop and the metrics assembly. -/
def DataAssociation.run {Cam : Type} (da : DataAssociation)
    (tri : SfmTrack2d → Option SfmTrack × ℚ × Bool)
    (cameras : List (Int × Cam))
    (corr_idxs_dict : List ((Nat × Nat) × List (Nat × Nat)))
    (keypoints_list : List Keypoints) :
    Except RunError (SfmData Cam × Metrics) :=
  da.runOnTracks tri cameras
    (generate_tracks_from_pairwise_matches corr_idxs_dict keypoints_list)

/-- Extended rationals with a bottom element standing for -np.inf, the
value written onto the diagonal in read_pair_file. -/
abbrev ExtQ := Option ℚ

/-- Ordering of ExtQ: none (-inf) is below everything, finite values
compare as rationals. -/
def leExtQ (a b : ExtQ) : Bool :=
  match a, b with
  | none, _ => true
  | some _, none => false
  | some x, some y => decide (x ≤ y)

/-- Diagonal loop of eval_gtsfm.py read_pair_file (lines 72-73):
pairs[i][i] = -np.inf for every viewpoint i. -/
def setDiagNegInf (pairs : List (List ℚ)) : List (List ExtQ) :=
  pairs.mapIdx (fun i row =>
    row.mapIdx (fun j x => if j = i then none else some x))

/-- numpy argsort of one column: the indices 0..n-1 sorted ascending by
entry value. numpy's default sort is not guaranteed stable; modelled with a
stable mergeSort, ties resolved in index order. -/
def argsortColumn (col : List ExtQ) : List Nat :=
  insertionSort (fun i j => leExtQ (col.getD i none) (col.getD j none))
    (List.range col.length)

/-- eval_gtsfm.py line 75: np.argsort(pairs, axis=0)[:, 1:nviews][:, ::-1].
Argsort along axis 0 argsorts every column (so the matrix whose column j is
the argsort of column j is the transpose of the row-wise argsorts of the
transpose); each row is then sliced to columns 1..nviews-1 and reversed. -/
def pairIdxMatrix (pairs : List (List ℚ)) (nviews : Nat) :
    List (List Nat) :=
  let withDiag := setDiagNegInf pairs
  let argsorted := ((withDiag.transpose).map argsortColumn).transpose
  argsorted.map (fun row => ((row.drop 1).take (nviews - 1)).reverse)

/-- eval_gtsfm.py read_pair_file (lines 68-82). After the Python loop
"for i in range(num_viewpoint)" of line 72 the loop variable i stays bound
to num_viewpoint - 1, and line 80 reads pair_idx[i] with that leaked value
inside the per-view loop, so every emitted entry carries the same
source-view list. -/
def read_pair_file (pairs : List (List ℚ)) (nviews : Nat) :
    List (Nat × List Nat) :=
  let num_viewpoint := pairs.length
  let pair_idx := pairIdxMatrix pairs nviews
  let i := num_viewpoint - 1
  (List.range num_viewpoint).map
    (fun view_idx => (view_idx, pair_idx.getD i []))

/-- ellipsoid.py line 14: percentile threshold classifying points as
outliers by magnitude. -/
def OUTLIER_DISTANCE_PERCENTILE : ℚ := 95

/-- np.percentile with the default linear interpolation: sort ascending,
put h = q/100 * (n-1), and interpolate between the sorted elements at
positions floor(h) and floor(h)+1. -/
def np_percentile (xs : List ℚ) (q : ℚ) : ℚ :=
  let s := insertionSort (fun a b => decide (a ≤ b)) xs
  let h : ℚ := q / 100 * ((xs.length : ℚ) - 1)
  let i : Nat := (⌊h⌋).toNat
  let g : ℚ := h - ⌊h⌋
  let lo := s.getD i 0
  let hi := s.getD (i + 1) lo
  lo + g * (hi - lo)

/-- Squared Euclidean norm of a 3D point: the square of the row norm that
np.linalg.norm(point_cloud, axis=1) computes in remove_outlier_points. -/
def sqNorm (p : ℚ × ℚ × ℚ) : ℚ :=
  p.1 ^ 2 + p.2.1 ^ 2 + p.2.2 ^ 2

/-- ellipsoid.py remove_outlier_points (lines 64-82): keep the rows whose
magnitude is strictly below the 95th percentile of all magnitudes. The row
norms mags = np.linalg.norm(point_cloud, axis=1) are passed explicitly
because square roots are irrational; the theorems tie them to the squared
norms of the rows. -/
def remove_outlier_points (point_cloud : List (ℚ × ℚ × ℚ))
    (mags : List ℚ) : List (ℚ × ℚ × ℚ) :=
  let cutoff_mag := np_percentile mags OUTLIER_DISTANCE_PERCENTILE
  ((point_cloud.zip mags).filter
    (fun pm => decide (pm.2 < cutoff_mag))).map Prod.fst

/-- Modelled from the spec: Keypoints.extract_indices
(gtsfm/common/keypoints.py is not part of the snapshot). Spec section 3:
index-based sub-selection of a Keypoints object by an index list,
preserving order, applied to the coordinates and to the responses when
present. -/
def Keypoints.extract_indices (kp : Keypoints) (idxs : List Nat) :
    Keypoints :=
  { coordinates := idxs.map (fun i => kp.coordinates.getD i (0, 0))
    responses := kp.responses.map (fun rs => idxs.map (fun i => rs.getD i 0)) }

/-- detector_descriptor_base.py DetectorDescriptorBase (lines 20-32): the
only state is max_keypoints, defaulting to 5000. -/
structure DetectorDescriptorBase where
  max_keypoints : Nat := 5000

/-- np.argsort(-keypoints.responses) of line 64: indices sorted ascending
by negated response, i.e. descending by response. numpy's default sort is
not guaranteed stable; modelled with a stable mergeSort, ties resolved in
index order. -/
def argsortNegatedResponses (rs : List ℚ) : List Nat :=
  insertionSort (fun i j => decide (rs.getD j 0 ≤ rs.getD i 0))
    (List.range rs.length)

/-- detector_descriptor_base.py DetectorDescriptorBase.filter_by_response
(lines 49-67): pass through unchanged when responses is None, otherwise
keep the (at most max_keypoints) highest-response keypoints and the
descriptor rows selected by the same index list. -/
def DetectorDescriptorBase.filter_by_response
    (self : DetectorDescriptorBase) (keypoints : Keypoints)
    (descriptors : List (List ℚ)) : Keypoints × List (List ℚ) :=
  match keypoints.responses with
  | none => (keypoints, descriptors)
  | some rs =>
      let sort_idxs := (argsortNegatedResponses rs).take self.max_keypoints
      (keypoints.extract_indices sort_idxs,
       sort_idxs.map (fun i => descriptors.getD i []))

/-- Acceptance decision of the run loop for one 2D track (data_assoc.py
line 98): the triangulated track when it is not None and passes the
minimum-length check, none otherwise. -/
def DataAssociation.acceptedTrack (da : DataAssociation)
    (tri : SfmTrack2d → Option SfmTrack × ℚ × Bool) (t : SfmTrack2d) :
    Option SfmTrack :=
  match (tri t).1 with
  | some s =>
      if da.min_track_len ≤ s.number_measurements then some s else none
  | none => none

/-- The integer list 0, 1, ..., n-1: the contents of the numpy array
np.arange(n) used as expected_camera_indices. -/
def rangeInt (n : Nat) : List Int :=
  (List.range n).map (fun k : Nat => (k : Int))

/-- Concrete fixture: a 2D track with three measurements. -/
def t3Fix : SfmTrack2d := ⟨[(0, (1, 2)), (1, (3, 4)), (2, (5, 6))]⟩

/-- Concrete fixture: a 2D track with two measurements. -/
def t2Fix : SfmTrack2d := ⟨[(0, (1, 2)), (1, (3, 4))]⟩

/-- Concrete fixture: the triangulated track of t3Fix. -/
def sTrack3Fix : SfmTrack := ⟨(1, 2, 3), [(0, (1, 2)), (1, (3, 4)), (2, (5, 6))]⟩

/-- Concrete fixture: the triangulated track of t2Fix. -/
def sTrack2Fix : SfmTrack := ⟨(1, 2, 3), [(0, (1, 2)), (1, (3, 4))]⟩

/-- Concrete fixture: a DataAssociation with min_track_len = 3. -/
def daFix3 : DataAssociation := ⟨100, 3, .DIRECT, none⟩

/-- Concrete fixture: a triangulation function that fits every track. -/
def triFix : SfmTrack2d → Option SfmTrack × ℚ × Bool :=
  fun t => (some ⟨(1, 2, 3), t.measurements⟩, 7, false)

/-- Concrete fixture: a single contiguously indexed camera. -/
def camsFix : List (Int × Nat) := [(0, 42)]

/-- Concrete fixture: a two-track input list. -/
def tsFix : List SfmTrack2d := [t3Fix, t2Fix]

/-- Concrete fixture: the successful run result on the fixtures. -/
def runFixResult : SfmData Nat × Metrics :=
  (daFix3.runOnTracks triFix camsFix tsFix).toOption.getD (⟨[], []⟩, [])

/-- Concrete fixture: a triangulation geometry whose two-measurement
tracks fail cheirality. -/
def geomFix : SfmTrack2d → TriOutcome :=
  fun t => ⟨some ⟨(1, 2, 3), t.measurements⟩, 7, t.measurements.length == 2⟩

/-- Concrete fixture: correspondences for one image pair. -/
def corrFix : List ((Nat × Nat) × List (Nat × Nat)) := [((0, 1), [(0, 0)])]

/-- Concrete fixture: keypoints for two images. -/
def kpsFix : List Keypoints := [⟨[(1, 2)], none⟩, ⟨[(3, 4)], none⟩]

/-- Concrete fixture: the track the builder produces from corrFix. -/
def trackBuiltFix : SfmTrack2d := ⟨[(0, (1, 2)), (1, (3, 4))]⟩

/-- Concrete fixture: keypoints for the conflicted-component input, two
keypoints in image 0 and one in image 1. -/
def kpsConflictFix : List Keypoints := [⟨[(1, 2), (5, 6)], none⟩, ⟨[(3, 4)], none⟩]

/-- Concrete fixture: correspondences whose two matches merge keypoints 0
and 1 of image 0 with keypoint 0 of image 1, forming a single connected
component carrying image index 0 twice. -/
def corrConflictFix : List ((Nat × Nat) × List (Nat × Nat)) :=
  [((0, 1), [(0, 0), (1, 0)])]

/-- Concrete fixture: a camera dict with a gap at index 1. -/
def camsGapFix : List (Int × Nat) := [(0, 10), (2, 20)]

/-- Concrete fixture: a contiguously indexed camera dict. -/
def camsOkFix : List (Int × Nat) := [(0, 10), (1, 20)]

/-- Concrete fixture: a point cloud with rational row norms. -/
def pcFix : List (ℚ × ℚ × ℚ) := [(3, 4, 0), (0, 0, 5), (12, 0, 5), (0, 1, 0)]

/-- Concrete fixture: the row norms of pcFix. -/
def magsFix : List ℚ := [5, 5, 13, 1]

/-- Concrete fixture: a point cloud whose rows all have norm 5. -/
def pcConstFix : List (ℚ × ℚ × ℚ) := [(3, 4, 0), (0, 3, 4)]

/-- Concrete fixture: the row norms of pcConstFix. -/
def magsConstFix : List ℚ := [5, 5]

/-- Concrete fixture: a 3x3 pairwise score matrix with distinct scores. -/
def pairsFix : List (List ℚ) := [[0, 3, 1], [2, 0, 5], [9, 4, 0]]

/-- Concrete fixture: a detector-descriptor keeping at most 2 keypoints. -/
def ddbFix : DetectorDescriptorBase := ⟨2⟩

/-- Concrete fixture: three keypoints with responses. -/
def kpRespFix : Keypoints := ⟨[(1, 1), (2, 2), (3, 3)], some [1, 5, 3]⟩

/-- Concrete fixture: a keypoint set without responses. -/
def kpNoRespFix : Keypoints := ⟨[(1, 1)], none⟩

/-- Concrete fixture: three descriptor rows. -/
def descsFix : List (List ℚ) := [[10], [20], [30]]

/- ------------------------------------------------------------------ -/
/- Helper lemmas about the insertion sort.                             -/
/- ------------------------------------------------------------------ -/

theorem insertSorted_perm {α : Type} (le : α → α → Bool) (a : α)
    (l : List α) : (insertSorted le a l).Perm (a :: l) := by
  induction l with
  | nil => rfl
  | cons b l ih =>
      by_cases hab : le a b = true
      · rw [insertSorted, if_pos hab]
      · rw [insertSorted, if_neg hab]
        exact (ih.cons b).trans (List.Perm.swap a b l)

theorem insertionSort_perm {α : Type} (le : α → α → Bool) (l : List α) :
    (insertionSort le l).Perm l := by
  induction l with
  | nil => rfl
  | cons a l ih =>
      rw [insertionSort]
      exact (insertSorted_perm le a _).trans (ih.cons a)

theorem pairwise_insertSorted {α : Type} (le : α → α → Bool)
    (htrans : ∀ a b c, le a b = true → le b c = true → le a c = true)
    (htotal : ∀ a b, le a b = true ∨ le b a = true)
    (a : α) (l : List α) (hl : l.Pairwise (fun x y => le x y = true)) :
    (insertSorted le a l).Pairwise (fun x y => le x y = true) := by
  induction l with
  | nil => simp [insertSorted]
  | cons b l ih =>
      rcases List.pairwise_cons.mp hl with ⟨hb, hl2⟩
      by_cases hab : le a b = true
      · rw [insertSorted, if_pos hab]
        refine List.pairwise_cons.mpr ⟨?_, hl⟩
        intro x hx
        rcases List.mem_cons.mp hx with rfl | hx2
        · exact hab
        · exact htrans a b x hab (hb x hx2)
      · rw [insertSorted, if_neg hab]
        have hba : le b a = true := (htotal a b).resolve_left hab
        refine List.pairwise_cons.mpr ⟨?_, ih hl2⟩
        intro x hx
        rcases List.mem_cons.mp ((insertSorted_perm le a l).subset hx)
          with rfl | hx2
        · exact hba
        · exact hb x hx2

theorem insertionSort_pairwise {α : Type} (le : α → α → Bool)
    (htrans : ∀ a b c, le a b = true → le b c = true → le a c = true)
    (htotal : ∀ a b, le a b = true ∨ le b a = true) (l : List α) :
    (insertionSort le l).Pairwise (fun x y => le x y = true) := by
  induction l with
  | nil => simp [insertionSort]
  | cons a l ih =>
      rw [insertionSort]
      exact pairwise_insertSorted le htrans htotal a _ ih

/- ------------------------------------------------------------------ -/
/- Helper lemmas about the run loop.                                   -/
/- ------------------------------------------------------------------ -/

theorem stepTrack_eq (da : DataAssociation)
    (tri : SfmTrack2d → Option SfmTrack × ℚ × Bool)
    (st : AssocState) (t : SfmTrack2d) :
    da.stepTrack tri st t =
      { num_tracks_w_cheirality_exceptions :=
          st.num_tracks_w_cheirality_exceptions +
            (if (tri t).2.2 then 1 else 0)
        per_accepted_track_avg_errors :=
          st.per_accepted_track_avg_errors ++
            (if (da.acceptedTrack tri t).isSome then [(tri t).2.1] else [])
        per_rejected_track_avg_errors :=
          st.per_rejected_track_avg_errors ++
            (if (da.acceptedTrack tri t).isSome then [] else [(tri t).2.1])
        tracks := st.tracks ++ (da.acceptedTrack tri t).toList } := by
  unfold DataAssociation.stepTrack DataAssociation.acceptedTrack
    DataAssociation.validate_track
  rcases htri : tri t with ⟨os, e, c⟩
  rcases os with _ | s
  · rcases c <;> simp [htri]
  · by_cases hl : da.min_track_len ≤ s.number_measurements <;> rcases c <;>
      simp [htri, hl]

theorem foldl_stepTrack_eq (da : DataAssociation)
    (tri : SfmTrack2d → Option SfmTrack × ℚ × Bool)
    (ts : List SfmTrack2d) (st : AssocState) :
    ts.foldl (da.stepTrack tri) st =
      { num_tracks_w_cheirality_exceptions :=
          st.num_tracks_w_cheirality_exceptions +
            ts.countP (fun t => (tri t).2.2)
        per_accepted_track_avg_errors :=
          st.per_accepted_track_avg_errors ++
            ts.flatMap (fun t =>
              if (da.acceptedTrack tri t).isSome then [(tri t).2.1] else [])
        per_rejected_track_avg_errors :=
          st.per_rejected_track_avg_errors ++
            ts.flatMap (fun t =>
              if (da.acceptedTrack tri t).isSome then [] else [(tri t).2.1])
        tracks :=
          st.tracks ++ ts.flatMap (fun t => (da.acceptedTrack tri t).toList) } := by
  induction ts generalizing st with
  | nil => simp
  | cons t ts ih =>
      rw [List.foldl_cons, ih, stepTrack_eq]
      simp only [List.countP_cons, List.flatMap_cons, AssocState.mk.injEq,
        List.append_assoc, and_true, true_and]
      omega

theorem finalAssoc_eq (da : DataAssociation)
    (tri : SfmTrack2d → Option SfmTrack × ℚ × Bool)
    (ts : List SfmTrack2d) :
    da.finalAssoc tri ts =
      { num_tracks_w_cheirality_exceptions :=
          ts.countP (fun t => (tri t).2.2)
        per_accepted_track_avg_errors :=
          ts.flatMap (fun t =>
            if (da.acceptedTrack tri t).isSome then [(tri t).2.1] else [])
        per_rejected_track_avg_errors :=
          ts.flatMap (fun t =>
            if (da.acceptedTrack tri t).isSome then [] else [(tri t).2.1])
        tracks := ts.flatMap (fun t => (da.acceptedTrack tri t).toList) } := by
  unfold DataAssociation.finalAssoc
  rw [foldl_stepTrack_eq]
  simp [initAssocState]

theorem flatMap_if_lengths {α : Type} (p : α → Bool) (f g : α → ℚ)
    (ts : List α) :
    (ts.flatMap (fun t => if p t then [f t] else [])).length +
      (ts.flatMap (fun t => if p t then [] else [g t])).length = ts.length := by
  induction ts with
  | nil => simp
  | cons t ts ih =>
      cases h : p t <;>
        simp [List.flatMap_cons, h, -List.length_flatMap] <;> omega

theorem flatMap_toList_length {α : Type} (F : α → Option SfmTrack)
    (f : α → ℚ) (ts : List α) :
    (ts.flatMap (fun t => (F t).toList)).length =
      (ts.flatMap (fun t => if (F t).isSome then [f t] else [])).length := by
  induction ts with
  | nil => simp
  | cons t ts ih =>
      rcases h : F t with _ | s <;>
        simp [List.flatMap_cons, h, -List.length_flatMap] <;> omega

theorem finalAssoc_partition_lengths (da : DataAssociation)
    (tri : SfmTrack2d → Option SfmTrack × ℚ × Bool)
    (ts : List SfmTrack2d) :
    (da.finalAssoc tri ts).per_accepted_track_avg_errors.length +
      (da.finalAssoc tri ts).per_rejected_track_avg_errors.length = ts.length ∧
    (da.finalAssoc tri ts).tracks.length =
      (da.finalAssoc tri ts).per_accepted_track_avg_errors.length := by
  rw [finalAssoc_eq]
  exact ⟨flatMap_if_lengths _ _ _ ts,
    flatMap_toList_length (da.acceptedTrack tri) (fun t => (tri t).2.1) ts⟩

theorem runOnTracks_ok_parts {Cam : Type} (da : DataAssociation)
    (tri : SfmTrack2d → Option SfmTrack × ℚ × Bool)
    (cameras : List (Int × Cam)) (ts : List SfmTrack2d)
    (d : SfmData Cam) (m : Metrics)
    (h : da.runOnTracks tri cameras ts = .ok (d, m)) :
    ts.length ≠ 0 ∧
    d.tracks = (da.finalAssoc tri ts).tracks ∧
    m = mkMetrics
      (listMean ((ts.map SfmTrack2d.number_measurements).map (fun n : Nat => (n : ℚ))))
      (((da.finalAssoc tri ts).tracks.length : ℚ) / (ts.length : ℚ))
      (((da.finalAssoc tri ts).num_tracks_w_cheirality_exceptions : ℚ) /
        (ts.length : ℚ))
      (da.finalAssoc tri ts) := by
  unfold DataAssociation.runOnTracks at h
  by_cases h0 : ts.length = 0
  · simp [h0] at h
  · simp only [h0, if_false] at h
    rcases hc : addCameras cameras with e | cs
    · rw [hc] at h; simp at h
    · rw [hc] at h
      simp only [Except.ok.injEq, Prod.mk.injEq] at h
      obtain ⟨hd, hm⟩ := h
      refine ⟨h0, ?_, ?_⟩
      · rw [← hd]
      · rw [← hm]

/-- C1: a triangulated track enters the output SfmData iff the
triangulation result is non-none and its measurement count is at least
min_track_len; and with min_track_len = 3 a successfully triangulated
track with exactly two measurements is rejected by the loop step
regardless of its reprojection error. -/
theorem da_track_accepted_iff {Cam : Type} (da : DataAssociation)
    (tri : SfmTrack2d → Option SfmTrack × ℚ × Bool)
    (cameras : List (Int × Cam)) (ts : List SfmTrack2d)
    (d : SfmData Cam) (m : Metrics)
    (hrun : da.runOnTracks tri cameras ts = .ok (d, m)) :
    (∀ s : SfmTrack, s ∈ d.tracks ↔
      ∃ t ∈ ts, (tri t).1 = some s ∧
        da.min_track_len ≤ s.number_measurements)
    ∧ (da.min_track_len = 3 →
        ∀ (st : AssocState) (t : SfmTrack2d) (s : SfmTrack),
          (tri t).1 = some s → s.number_measurements = 2 →
          (da.stepTrack tri st t).tracks = st.tracks ∧
          (da.stepTrack tri st t).per_rejected_track_avg_errors =
            st.per_rejected_track_avg_errors ++ [(tri t).2.1]) := by
  obtain ⟨h0, hd, hm⟩ := runOnTracks_ok_parts da tri cameras ts d m hrun
  constructor
  · intro s
    rw [hd, finalAssoc_eq]
    simp only [List.mem_flatMap]
    constructor
    · rintro ⟨t, ht, hmem⟩
      unfold DataAssociation.acceptedTrack at hmem
      rcases h1 : (tri t).1 with _ | s2
      · rw [h1] at hmem; simp at hmem
      · rw [h1] at hmem
        by_cases hl : da.min_track_len ≤ s2.number_measurements
        · simp only [hl, if_true, Option.toList_some, List.mem_singleton] at hmem
          subst hmem; exact ⟨t, ht, h1, hl⟩
        · simp [hl] at hmem
    · rintro ⟨t, ht, h1, hl⟩
      refine ⟨t, ht, ?_⟩
      unfold DataAssociation.acceptedTrack
      rw [h1]
      simp [hl]
  · intro h3 st t s h1 h2
    have hns : (da.acceptedTrack tri t).isSome = false := by
      unfold DataAssociation.acceptedTrack
      rw [h1]
      simp [h3, h2]
    rw [stepTrack_eq]
    have hnil : (da.acceptedTrack tri t).toList = [] := by
      rcases ha : da.acceptedTrack tri t with _ | s2
      · rfl
      · rw [ha] at hns; simp at hns
    simp [hns, hnil]

/-- C4: with zero input 2D tracks, DataAssociation.run crashes with a
ZeroDivisionError from the unguarded accepted_tracks_ratio division rather
than producing a sentinel value. -/
theorem run_zero_tracks_division_error {Cam : Type} (da : DataAssociation)
    (tri : SfmTrack2d → Option SfmTrack × ℚ × Bool)
    (cameras : List (Int × Cam)) :
    da.runOnTracks tri cameras [] = .error .zeroDivisionError := by
  simp [DataAssociation.runOnTracks]

/-- C5: every input track lands in exactly one of the accepted or rejected
partitions, so for nonempty input the accepted ratio plus
rejected-count-over-input-count equals one before rounding. -/
theorem accepted_rejected_ratio_sum (da : DataAssociation)
    (tri : SfmTrack2d → Option SfmTrack × ℚ × Bool)
    (ts : List SfmTrack2d) (h : 0 < ts.length) :
    ((da.finalAssoc tri ts).tracks.length : ℚ) / (ts.length : ℚ) +
      ((da.finalAssoc tri ts).per_rejected_track_avg_errors.length : ℚ) /
        (ts.length : ℚ) = 1 := by
  obtain ⟨h1, h2⟩ := finalAssoc_partition_lengths da tri ts
  have hnat : (da.finalAssoc tri ts).tracks.length +
      (da.finalAssoc tri ts).per_rejected_track_avg_errors.length =
      ts.length := by omega
  have hsum : ((da.finalAssoc tri ts).tracks.length : ℚ) +
      ((da.finalAssoc tri ts).per_rejected_track_avg_errors.length : ℚ) =
      (ts.length : ℚ) := by exact_mod_cast hnat
  rw [div_add_div_same, hsum, div_self]
  exact Nat.cast_ne_zero.mpr h.ne'

/-- C6: a track whose triangulation reports a cheirality failure is
counted by the cheirality counter, its triangulation result is none so the
loop step never adds it to the output, and its average reprojection error
is recorded in the rejected-track error list. -/
theorem cheirality_failure_handling (da : DataAssociation)
    (geom : SfmTrack2d → TriOutcome) (ts : List SfmTrack2d) :
    ((da.finalAssoc (specTriangulate geom) ts).num_tracks_w_cheirality_exceptions
        = ts.countP (fun t => (geom t).cheirality_failure))
    ∧ (∀ t : SfmTrack2d, (geom t).cheirality_failure = true →
        (specTriangulate geom t).1 = none ∧
        ∀ st : AssocState,
          (da.stepTrack (specTriangulate geom) st t).tracks = st.tracks)
    ∧ (∀ t ∈ ts, (geom t).cheirality_failure = true →
        (geom t).avg_error ∈
          (da.finalAssoc (specTriangulate geom) ts).per_rejected_track_avg_errors) := by
  have hflag : ∀ t : SfmTrack2d,
      (specTriangulate geom t).2.2 = (geom t).cheirality_failure := by
    intro t
    unfold specTriangulate
    rcases hc : (geom t).cheirality_failure <;> simp [hc]
  have hnone : ∀ t : SfmTrack2d, (geom t).cheirality_failure = true →
      (specTriangulate geom t).1 = none := by
    intro t hc
    unfold specTriangulate
    simp [hc]
  refine ⟨?_, ?_, ?_⟩
  · rw [finalAssoc_eq]
    exact List.countP_congr (fun t _ => by rw [hflag t])
  · intro t hc
    refine ⟨hnone t hc, fun st => ?_⟩
    rw [stepTrack_eq]
    have hnil : (da.acceptedTrack (specTriangulate geom) t).toList = [] := by
      unfold DataAssociation.acceptedTrack
      rw [hnone t hc]
      rfl
    simp [hnil]
  · intro t ht hc
    rw [finalAssoc_eq]
    simp only [List.mem_flatMap]
    refine ⟨t, ht, ?_⟩
    have hacc : (da.acceptedTrack (specTriangulate geom) t).isSome = false := by
      unfold DataAssociation.acceptedTrack
      rw [hnone t hc]
      rfl
    have herr : (specTriangulate geom t).2.1 = (geom t).avg_error := by
      unfold specTriangulate
      rcases hcc : (geom t).cheirality_failure <;> simp [hcc]
    rw [hacc]
    simp [herr]

/-- C7: a successful run returns a metrics record with the stable key
names, holding the accepted and cheirality-failure ratios, the length
histogram of accepted tracks for exact lengths 2 through 10, the
accepted / rejected per-track error lists whose lengths sum to the input
track count, and a points_3d list with the 3D coordinates of exactly the
accepted tracks. -/
theorem metrics_record_fields {Cam : Type} (da : DataAssociation)
    (tri : SfmTrack2d → Option SfmTrack × ℚ × Bool)
    (cameras : List (Int × Cam)) (ts : List SfmTrack2d)
    (d : SfmData Cam) (m : Metrics)
    (hrun : da.runOnTracks tri cameras ts = .ok (d, m)) :
    m.lookup "accepted_tracks_ratio" =
      some (.num (np_round3
        (((da.finalAssoc tri ts).tracks.length : ℚ) / (ts.length : ℚ))))
    ∧ m.lookup "track_cheirality_failure_ratio" =
      some (.num (np_round3
        (((da.finalAssoc tri ts).num_tracks_w_cheirality_exceptions : ℚ) /
          (ts.length : ℚ))))
    ∧ m.lookup "num_len_2_tracks" = some (.count
        (((da.finalAssoc tri ts).tracks.map SfmTrack.number_measurements).count 2))
    ∧ m.lookup "num_len_3_tracks" = some (.count
        (((da.finalAssoc tri ts).tracks.map SfmTrack.number_measurements).count 3))
    ∧ m.lookup "num_len_4_tracks" = some (.count
        (((da.finalAssoc tri ts).tracks.map SfmTrack.number_measurements).count 4))
    ∧ m.lookup "num_len_5_tracks" = some (.count
        (((da.finalAssoc tri ts).tracks.map SfmTrack.number_measurements).count 5))
    ∧ m.lookup "num_len_6_tracks" = some (.count
        (((da.finalAssoc tri ts).tracks.map SfmTrack.number_measurements).count 6))
    ∧ m.lookup "num_len_7_tracks" = some (.count
        (((da.finalAssoc tri ts).tracks.map SfmTrack.number_measurements).count 7))
    ∧ m.lookup "num_len_8_tracks" = some (.count
        (((da.finalAssoc tri ts).tracks.map SfmTrack.number_measurements).count 8))
    ∧ m.lookup "num_len_9_tracks" = some (.count
        (((da.finalAssoc tri ts).tracks.map SfmTrack.number_measurements).count 9))
    ∧ m.lookup "num_len_10_tracks" = some (.count
        (((da.finalAssoc tri ts).tracks.map SfmTrack.number_measurements).count 10))
    ∧ m.lookup "per_accepted_track_avg_errors" =
        some (.qlist (da.finalAssoc tri ts).per_accepted_track_avg_errors)
    ∧ m.lookup "per_rejected_track_avg_errors" =
        some (.qlist (da.finalAssoc tri ts).per_rejected_track_avg_errors)
    ∧ (da.finalAssoc tri ts).per_accepted_track_avg_errors.length +
        (da.finalAssoc tri ts).per_rejected_track_avg_errors.length = ts.length
    ∧ m.lookup "points_3d" =
        some (.points ((da.finalAssoc tri ts).tracks.map SfmTrack.point3))
    ∧ ((da.finalAssoc tri ts).tracks.map SfmTrack.point3).length =
        d.tracks.length := by
  obtain ⟨h0, hd, hm⟩ := runOnTracks_ok_parts da tri cameras ts d m hrun
  obtain ⟨hpart, -⟩ := finalAssoc_partition_lengths da tri ts
  subst hm
  refine ⟨?_, ?_, ?_, ?_, ?_, ?_, ?_, ?_, ?_, ?_, ?_, ?_, ?_, hpart, ?_,
      by rw [hd]; simp⟩ <;>
    simp [mkMetrics, get_track_length_statistics, List.lookup]

theorem mem_rangeInt {n : Nat} {k : Int} :
    k ∈ rangeInt n ↔ 0 ≤ k ∧ k < (n : Int) := by
  unfold rangeInt
  constructor
  · intro hk
    obtain ⟨a, ha, hk⟩ := List.mem_map.mp hk
    have ha2 := List.mem_range.mp ha
    have hcast : ((a : Int)) = k := hk
    omega
  · intro hb
    refine List.mem_map.mpr
      ⟨k.toNat, List.mem_range.mpr (by omega), ?_⟩
    show ((k.toNat : Int)) = k
    omega

theorem rangeInt_length (n : Nat) : (rangeInt n).length = n := by
  rw [rangeInt, List.length_map, List.length_range]

theorem addCamerasGo_ok {Cam : Type} (N : Nat) (acc : List Cam)
    (l : List (Int × Cam)) (h : ∀ p ∈ l, 0 ≤ p.1 ∧ p.1 < (N : Int)) :
    addCamerasGo N acc l = .ok (acc ++ l.map Prod.snd) := by
  induction l generalizing acc with
  | nil => simp [addCamerasGo]
  | cons p l ih =>
      obtain ⟨h1, h2⟩ := h p (List.mem_cons_self p l)
      rcases p with ⟨i, cam⟩
      unfold addCamerasGo arangeIndex
      simp only [h1, h2, if_true]
      rw [if_neg (by simp)]
      rw [ih (acc ++ [cam]) (fun q hq => h q (List.mem_cons_of_mem _ hq))]
      simp

theorem addCamerasGo_err {Cam : Type} (N : Nat) (acc : List Cam)
    (l : List (Int × Cam))
    (h : ∃ p ∈ l, ¬(0 ≤ p.1 ∧ p.1 < (N : Int))) :
    ∃ e, addCamerasGo N acc l = .error e := by
  induction l generalizing acc with
  | nil => simp at h
  | cons p l ih =>
      rcases p with ⟨i, cam⟩
      by_cases hgood : 0 ≤ i ∧ i < (N : Int)
      · obtain ⟨hp, hq, hbad⟩ := h
        rcases List.mem_cons.mp hq with heq | hmem
        · rw [heq] at hbad; exact absurd hgood hbad
        · unfold addCamerasGo arangeIndex
          simp only [hgood.1, hgood.2, if_true]
          rw [if_neg (by simp)]
          exact ih (acc ++ [cam]) ⟨hp, hmem, hbad⟩
      · unfold addCamerasGo arangeIndex
        by_cases h0 : 0 ≤ i
        · have hN : ¬ i < (N : Int) := fun hlt => hgood ⟨h0, hlt⟩
          simp [h0, hN]
        · by_cases hlow : -(N : Int) ≤ i
          · have hne : i ≠ (N : Int) + i := by
              intro heq
              have : (N : Int) = 0 := by omega
              omega
            simp [h0, hlow, hne]
          · simp [h0, hlow]

/-- C3: a camera dict whose key set is not exactly the contiguous range
0..N-1 makes the camera loop of DataAssociation.run raise an error, so no
scene with a silently truncated camera set is returned; a dict whose key
set is exactly 0..N-1 raises no error and all N cameras are added. -/
theorem camera_index_contiguity_check {Cam : Type}
    (cameras : List (Int × Cam))
    (hnd : (cameras.map Prod.fst).Nodup) :
    (¬ (cameras.map Prod.fst).Perm (rangeInt cameras.length) →
      ∃ e, addCameras cameras = .error e)
    ∧ ((cameras.map Prod.fst).Perm (rangeInt cameras.length) →
      addCameras cameras = .ok (cameras.map Prod.snd)) := by
  constructor
  · intro hnp
    by_cases hin : ∀ p ∈ cameras, 0 ≤ p.1 ∧ p.1 < (cameras.length : Int)
    · exfalso
      apply hnp
      have hsub : (cameras.map Prod.fst) ⊆ rangeInt cameras.length := by
        intro k hk
        rcases List.mem_map.mp hk with ⟨p, hp, hpk⟩
        obtain ⟨h1, h2⟩ := hin p hp
        refine mem_rangeInt.mpr ⟨?_, ?_⟩ <;> omega
      have hlen : (rangeInt cameras.length).length ≤
          (cameras.map Prod.fst).length := by
        rw [rangeInt_length, List.length_map]
      exact (List.subperm_of_subset hnd hsub).perm_of_length_le hlen
    · push_neg at hin
      rcases hin with ⟨p, hp, hbad⟩
      refine addCamerasGo_err cameras.length [] cameras ⟨p, hp, ?_⟩
      intro hgood
      have := hbad hgood.1
      omega
  · intro hperm
    have hin : ∀ p ∈ cameras, 0 ≤ p.1 ∧ p.1 < (cameras.length : Int) := by
      intro p hp
      have hk : p.1 ∈ rangeInt cameras.length :=
        hperm.mem_iff.mp (List.mem_map.mpr ⟨p, hp, rfl⟩)
      exact mem_rangeInt.mp hk
    have := addCamerasGo_ok cameras.length [] cameras hin
    unfold addCameras
    rw [this]
    simp

theorem filterMap_ite_eq_map_filter {α β : Type} (p : α → Prop)
    [DecidablePred p] (g : α → β) (l : List α) :
    (l.filterMap (fun a => if p a then some (g a) else none)) =
      (l.filter (fun a => decide (p a))).map g := by
  induction l with
  | nil => rfl
  | cons a l ih => by_cases h : p a <;> simp [h, ih]

/-- C2: every 2D track produced by the track builder has at most one
measurement per image index, and a conflicted component is dropped from
the output entirely rather than deduplicated: the output is exactly one
track per component whose image indices are duplicate-free, each carrying
that component's full measurement list, so the output length equals the
number of non-conflicted components. -/
theorem track_builder_distinct_images :
    (∀ (corr : List ((Nat × Nat) × List (Nat × Nat)))
       (kps : List Keypoints) (t : SfmTrack2d),
       t ∈ generate_tracks_from_pairwise_matches corr kps →
       (t.measurements.map Prod.fst).Nodup)
    ∧ (∀ (corr : List ((Nat × Nat) × List (Nat × Nat)))
         (kps : List Keypoints),
         generate_tracks_from_pairwise_matches corr kps =
           ((trackComponents corr).filter
             (fun c => decide (c.map Prod.fst).Nodup)).map
             (fun c => SfmTrack2d.mk (c.map (nodeMeasurement kps))))
    ∧ (∀ (corr : List ((Nat × Nat) × List (Nat × Nat)))
         (kps : List Keypoints),
         (generate_tracks_from_pairwise_matches corr kps).length =
           ((trackComponents corr).filter
             (fun c => decide (c.map Prod.fst).Nodup)).length) := by
  have hfst : ∀ (kps : List Keypoints) (c : List TrackNode),
      (c.map (nodeMeasurement kps)).map Prod.fst = c.map Prod.fst := by
    intro kps c
    rw [List.map_map]
    rfl
  have h1 : ∀ (corr : List ((Nat × Nat) × List (Nat × Nat)))
      (kps : List Keypoints) (t : SfmTrack2d),
      t ∈ generate_tracks_from_pairwise_matches corr kps →
      (t.measurements.map Prod.fst).Nodup := by
    intro corr kps t ht
    unfold generate_tracks_from_pairwise_matches at ht
    rcases List.mem_filterMap.mp ht with ⟨c, hc, hct⟩
    by_cases hnd : (c.map Prod.fst).Nodup
    · rw [if_pos hnd] at hct
      obtain rfl := Option.some.inj hct
      rw [hfst kps c]
      exact hnd
    · rw [if_neg hnd] at hct
      simp at hct
  have h2 : ∀ (corr : List ((Nat × Nat) × List (Nat × Nat)))
      (kps : List Keypoints),
      generate_tracks_from_pairwise_matches corr kps =
        ((trackComponents corr).filter
          (fun c => decide (c.map Prod.fst).Nodup)).map
          (fun c => SfmTrack2d.mk (c.map (nodeMeasurement kps))) := by
    intro corr kps
    unfold generate_tracks_from_pairwise_matches
    exact filterMap_ite_eq_map_filter _ _ _
  refine ⟨h1, h2, fun corr kps => ?_⟩
  rw [h2 corr kps, List.length_map]

/-- C8: read_pair_file reads pair_idx at the leaked loop variable, so for
any pairs matrix with at least one viewpoint every returned entry carries
the source-view list computed for the last viewpoint index, and all
entries share the same list. -/
theorem read_pair_file_shared_src_views (pairs : List (List ℚ))
    (nviews : Nat) (hne : 1 ≤ pairs.length) :
    (∀ e ∈ read_pair_file pairs nviews,
       e.2 = (pairIdxMatrix pairs nviews).getD (pairs.length - 1) [])
    ∧ (∀ e1 ∈ read_pair_file pairs nviews,
       ∀ e2 ∈ read_pair_file pairs nviews, e1.2 = e2.2) := by
  have h1 : ∀ e ∈ read_pair_file pairs nviews,
      e.2 = (pairIdxMatrix pairs nviews).getD (pairs.length - 1) [] := by
    intro e he
    unfold read_pair_file at he
    rcases List.mem_map.mp he with ⟨v, hv, hev⟩
    rw [← hev]
  exact ⟨h1, fun e1 hm1 e2 hm2 => (h1 e1 hm1).trans (h1 e2 hm2).symm⟩

theorem np_percentile_const (xs : List ℚ) (c : ℚ) (hne : xs ≠ [])
    (hall : ∀ m ∈ xs, m = c) : np_percentile xs 95 = c := by
  unfold np_percentile
  have hperm := insertionSort_perm (fun a b : ℚ => decide (a ≤ b)) xs
  set s := insertionSort (fun a b : ℚ => decide (a ≤ b)) xs with hs
  have hlen : s.length = xs.length := hperm.length_eq
  have hn : 1 ≤ xs.length := List.length_pos.mpr hne
  have halls : ∀ m ∈ s, m = c := fun m hm => hall m (hperm.subset hm)
  have hq0 : (0 : ℚ) ≤ (95 : ℚ) / 100 * ((xs.length : ℚ) - 1) := by
    have : (1 : ℚ) ≤ (xs.length : ℚ) := by exact_mod_cast hn
    nlinarith
  have hqle : (95 : ℚ) / 100 * ((xs.length : ℚ) - 1) ≤ (xs.length : ℚ) - 1 := by
    have : (1 : ℚ) ≤ (xs.length : ℚ) := by exact_mod_cast hn
    nlinarith
  have hfl : 0 ≤ ⌊(95 : ℚ) / 100 * ((xs.length : ℚ) - 1)⌋ :=
    Int.floor_nonneg.mpr hq0
  have hfu : ⌊(95 : ℚ) / 100 * ((xs.length : ℚ) - 1)⌋ ≤ (xs.length : Int) - 1 := by
    have hmono := Int.floor_le_floor hqle
    have heq : ⌊((xs.length : ℚ) - 1)⌋ = (xs.length : Int) - 1 := by
      rw [show ((xs.length : ℚ) - 1) = (((xs.length : Int) - 1 : Int) : ℚ) by
        push_cast; ring]
      exact Int.floor_intCast _
    omega
  have hidx : (⌊(95 : ℚ) / 100 * ((xs.length : ℚ) - 1)⌋).toNat < s.length := by
    rw [hlen]
    omega
  have hlo : s.getD (⌊(95 : ℚ) / 100 * ((xs.length : ℚ) - 1)⌋).toNat 0 = c := by
    rw [List.getD_eq_getElem s 0 hidx]
    exact halls _ (List.getElem_mem hidx)
  have hhi : s.getD ((⌊(95 : ℚ) / 100 * ((xs.length : ℚ) - 1)⌋).toNat + 1)
      (s.getD (⌊(95 : ℚ) / 100 * ((xs.length : ℚ) - 1)⌋).toNat 0) = c := by
    by_cases hlt : (⌊(95 : ℚ) / 100 * ((xs.length : ℚ) - 1)⌋).toNat + 1 < s.length
    · rw [List.getD_eq_getElem s _ hlt]
      exact halls _ (List.getElem_mem hlt)
    · rw [List.getD_eq_default]
      · exact hlo
      · omega
  simp only [hhi]
  simp only [hlo]
  ring

/-- C9: remove_outlier_points keeps exactly the rows whose Euclidean norm
is strictly below the 95th percentile of all row norms; in particular when
all rows have equal norm the output is empty, so the output size is not
0.95 times the input size. -/
theorem remove_outlier_strict_percentile (pc : List (ℚ × ℚ × ℚ))
    (mags : List ℚ) (hlen : mags.length = pc.length)
    (hmag : ∀ i, i < pc.length → 0 ≤ mags.getD i 0 ∧
      (mags.getD i 0) ^ 2 = sqNorm (pc.getD i (0, 0, 0))) :
    (∀ p : ℚ × ℚ × ℚ, p ∈ remove_outlier_points pc mags ↔
      ∃ i, i < pc.length ∧ pc.getD i (0, 0, 0) = p ∧
        mags.getD i 0 < np_percentile mags OUTLIER_DISTANCE_PERCENTILE)
    ∧ (∀ c : ℚ, (∀ m ∈ mags, m = c) → pc ≠ [] →
        remove_outlier_points pc mags = []) := by
  have hziplen : (pc.zip mags).length = pc.length := by
    rw [List.length_zip, hlen, Nat.min_self]
  constructor
  · intro p
    unfold remove_outlier_points
    constructor
    · intro hp
      rcases List.mem_map.mp hp with ⟨pm, hpm, hppm⟩
      rcases List.mem_filter.mp hpm with ⟨hzip, hcut⟩
      rcases List.mem_iff_getElem.mp hzip with ⟨i, hzi, hget⟩
      have hi : i < pc.length := by rw [hziplen] at hzi; exact hzi
      have him : i < mags.length := by omega
      have hgz : (pc.zip mags)[i] = (pc[i], mags[i]) := List.getElem_zip
      rw [hgz] at hget
      refine ⟨i, hi, ?_, ?_⟩
      · rw [List.getD_eq_getElem pc _ hi, ← hppm, ← hget]
      · have h2 : pm.2 = mags[i] := by rw [← hget]
        have := of_decide_eq_true hcut
        rw [List.getD_eq_getElem mags _ him]
        rw [h2] at this
        exact this
    · rintro ⟨i, hi, hpi, hcut⟩
      have him : i < mags.length := by omega
      have hzi : i < (pc.zip mags).length := by rw [hziplen]; exact hi
      refine List.mem_map.mpr ⟨(pc[i], mags[i]), ?_, ?_⟩
      · refine List.mem_filter.mpr ⟨?_, ?_⟩
        · exact List.mem_iff_getElem.mpr ⟨i, hzi, List.getElem_zip⟩
        · refine decide_eq_true ?_
          rw [List.getD_eq_getElem mags _ (by omega : i < mags.length)] at hcut
          exact hcut
      · rw [List.getD_eq_getElem pc _ hi] at hpi
        exact hpi
  · intro c hall hne
    simp only [remove_outlier_points]
    have hmne : mags ≠ [] := by
      intro hd
      apply hne
      rw [hd] at hlen
      simp only [List.length_nil] at hlen
      exact List.eq_nil_of_length_eq_zero hlen.symm
    have hcut : np_percentile mags OUTLIER_DISTANCE_PERCENTILE = c := by
      unfold OUTLIER_DISTANCE_PERCENTILE
      exact np_percentile_const mags c hmne hall
    rw [hcut]
    have hfilter : (pc.zip mags).filter (fun pm => decide (pm.2 < c)) = [] := by
      rw [List.filter_eq_nil_iff]
      intro pm hpm
      have hm2 : pm.2 ∈ mags := (List.of_mem_zip hpm).2
      rw [hall pm.2 hm2]
      simp
    rw [hfilter]
    rfl

theorem argsortNegatedResponses_perm (rs : List ℚ) :
    (argsortNegatedResponses rs).Perm (List.range rs.length) :=
  insertionSort_perm _ _

theorem argsortNegatedResponses_pairwise (rs : List ℚ) :
    (argsortNegatedResponses rs).Pairwise
      (fun i j => rs.getD j 0 ≤ rs.getD i 0) := by
  have h := insertionSort_pairwise
    (fun i j : Nat => decide (rs.getD j 0 ≤ rs.getD i 0))
    (fun a b c hab hbc => by
      simp only [decide_eq_true_eq] at hab hbc ⊢
      exact le_trans hbc hab)
    (fun a b => by
      simp only [decide_eq_true_eq]
      exact le_total (rs.getD b 0) (rs.getD a 0))
    (List.range rs.length)
  exact h.imp (fun hab => of_decide_eq_true hab)

/-- C10: filter_by_response returns its keypoints and descriptors
arguments unchanged when responses is None; otherwise it keeps at most
max_keypoints keypoints, those with the largest responses in
non-increasing response order, with the descriptors selected by exactly
the same index list, preserving the keypoint-descriptor pairing. -/
theorem filter_by_response_spec (self : DetectorDescriptorBase)
    (keypoints : Keypoints) (descriptors : List (List ℚ)) :
    (keypoints.responses = none →
      self.filter_by_response keypoints descriptors = (keypoints, descriptors))
    ∧ (∀ rs : List ℚ, keypoints.responses = some rs →
        (self.filter_by_response keypoints descriptors).1.coordinates.length ≤
          self.max_keypoints ∧
        ∃ idxs : List Nat,
          self.filter_by_response keypoints descriptors =
            (keypoints.extract_indices idxs,
             idxs.map (fun i => descriptors.getD i [])) ∧
          idxs.length ≤ self.max_keypoints ∧
          (∀ i ∈ idxs, i < rs.length) ∧
          idxs.Pairwise (fun i j => rs.getD j 0 ≤ rs.getD i 0) ∧
          (∀ i ∈ idxs, ∀ j, j < rs.length → j ∉ idxs →
            rs.getD j 0 ≤ rs.getD i 0)) := by
  constructor
  · intro hnone
    unfold DetectorDescriptorBase.filter_by_response
    rw [hnone]
  · intro rs hrs
    have hout : self.filter_by_response keypoints descriptors =
        (keypoints.extract_indices
          ((argsortNegatedResponses rs).take self.max_keypoints),
         ((argsortNegatedResponses rs).take self.max_keypoints).map
           (fun i => descriptors.getD i [])) := by
      unfold DetectorDescriptorBase.filter_by_response
      rw [hrs]
    have hmemfull : ∀ i ∈ argsortNegatedResponses rs, i < rs.length := by
      intro i hi
      exact List.mem_range.mp ((argsortNegatedResponses_perm rs).subset hi)
    constructor
    · rw [hout]
      simp only [Keypoints.extract_indices, List.length_map]
      exact List.length_take_le _ _
    · refine ⟨(argsortNegatedResponses rs).take self.max_keypoints,
        hout, List.length_take_le _ _, ?_, ?_, ?_⟩
      · intro i hi
        exact hmemfull i (List.mem_of_mem_take hi)
      · exact List.Pairwise.sublist (List.take_sublist _ _)
          (argsortNegatedResponses_pairwise rs)
      · intro i hi j hj hnotin
        have hsplit := List.take_append_drop self.max_keypoints
          (argsortNegatedResponses rs)
        have hpw := argsortNegatedResponses_pairwise rs
        rw [← hsplit] at hpw
        have hpa := (List.pairwise_append.mp hpw).2.2
        have hjfull : j ∈ argsortNegatedResponses rs :=
          (argsortNegatedResponses_perm rs).mem_iff.mpr (List.mem_range.mpr hj)
        have hjdrop : j ∈ (argsortNegatedResponses rs).drop self.max_keypoints := by
          rcases List.mem_append.mp (by rw [hsplit]; exact hjfull) with h | h
          · exact absurd h hnotin
          · exact h
        exact hpa i hi j hjdrop

/-- Witness for C1 at concrete fixtures: the run succeeds, the
three-measurement track is accepted into the output, and the loop step
rejects the two-measurement track under min_track_len = 3. -/
theorem da_track_accepted_iff_witness :
    daFix3.runOnTracks triFix camsFix tsFix = .ok runFixResult ∧
    sTrack3Fix ∈ runFixResult.1.tracks ∧
    (daFix3.stepTrack triFix initAssocState t2Fix).tracks =
      initAssocState.tracks := by
  have hrun : daFix3.runOnTracks triFix camsFix tsFix =
      .ok (runFixResult.1, runFixResult.2) := rfl
  refine ⟨hrun, ?_, ?_⟩
  · exact ((da_track_accepted_iff daFix3 triFix camsFix tsFix
      runFixResult.1 runFixResult.2 hrun).1 sTrack3Fix).mpr
      ⟨t3Fix, by decide, by decide, by decide⟩
  · exact ((da_track_accepted_iff daFix3 triFix camsFix tsFix
      runFixResult.1 runFixResult.2 hrun).2 rfl initAssocState t2Fix
      sTrack2Fix (by decide) (by decide)).1

/-- Witness for C2 at concrete fixtures: the built track is in the output
with distinct image indices, and on the conflicted input the single merged
component yields zero output tracks, matching the non-conflicted count. -/
theorem track_builder_distinct_images_witness :
    trackBuiltFix ∈ generate_tracks_from_pairwise_matches corrFix kpsFix ∧
    (trackBuiltFix.measurements.map Prod.fst).Nodup ∧
    (generate_tracks_from_pairwise_matches corrConflictFix
        kpsConflictFix).length =
      ((trackComponents corrConflictFix).filter
        (fun c => decide (c.map Prod.fst).Nodup)).length ∧
    generate_tracks_from_pairwise_matches corrConflictFix kpsConflictFix =
      [] ∧
    (trackComponents corrConflictFix).length = 1 := by
  have hm : trackBuiltFix ∈
      generate_tracks_from_pairwise_matches corrFix kpsFix := by decide
  exact ⟨hm, track_builder_distinct_images.1 corrFix kpsFix trackBuiltFix hm,
    track_builder_distinct_images.2.2 corrConflictFix kpsConflictFix,
    by decide, by decide⟩

/-- Witness for C3 at concrete fixtures: cameras indexed 0 and 2 make the
camera loop fail, cameras indexed 0 and 1 are all added. -/
theorem camera_index_contiguity_check_witness :
    (addCameras camsGapFix).isOk = false ∧
    addCameras camsOkFix = .ok (camsOkFix.map Prod.snd) := by
  constructor
  · obtain ⟨e, he⟩ :=
      (camera_index_contiguity_check camsGapFix (by decide)).1 (by decide)
    rw [he]
    rfl
  · exact (camera_index_contiguity_check camsOkFix (by decide)).2 (by decide)

/-- Witness for C5 at concrete fixtures: with two input tracks the
accepted ratio plus the rejected fraction is one. -/
theorem accepted_rejected_ratio_sum_witness :
    0 < tsFix.length ∧
    ((daFix3.finalAssoc triFix tsFix).tracks.length : ℚ) /
        (tsFix.length : ℚ) +
      ((daFix3.finalAssoc triFix tsFix).per_rejected_track_avg_errors.length : ℚ) /
        (tsFix.length : ℚ) = 1 :=
  ⟨by decide, accepted_rejected_ratio_sum daFix3 triFix tsFix (by decide)⟩

/-- Witness for C6 at concrete fixtures: the two-measurement track fails
cheirality, and its average error lands in the rejected list. -/
theorem cheirality_failure_handling_witness :
    (geomFix t2Fix).cheirality_failure = true ∧
    (geomFix t2Fix).avg_error ∈
      (daFix3.finalAssoc (specTriangulate geomFix)
        tsFix).per_rejected_track_avg_errors :=
  ⟨by decide, (cheirality_failure_handling daFix3 geomFix tsFix).2.2 t2Fix
    (by decide) (by decide)⟩

/-- Witness for C7 at concrete fixtures: the run succeeds and the metrics
record carries the rounded accepted ratio under its stable key. -/
theorem metrics_record_fields_witness :
    daFix3.runOnTracks triFix camsFix tsFix = .ok runFixResult ∧
    runFixResult.2.lookup "accepted_tracks_ratio" =
      some (.num (np_round3
        (((daFix3.finalAssoc triFix tsFix).tracks.length : ℚ) /
          (tsFix.length : ℚ)))) := by
  have hrun : daFix3.runOnTracks triFix camsFix tsFix =
      .ok (runFixResult.1, runFixResult.2) := rfl
  exact ⟨hrun, (metrics_record_fields daFix3 triFix camsFix tsFix
    runFixResult.1 runFixResult.2 hrun).1⟩

/-- Witness for C8 at a concrete 3x3 score matrix: the first emitted entry
carries the source-view list of the last viewpoint. -/
theorem read_pair_file_shared_src_views_witness :
    1 ≤ pairsFix.length ∧
    ((read_pair_file pairsFix 3).getD 0 (0, [])).2 =
      (pairIdxMatrix pairsFix 3).getD (pairsFix.length - 1) [] :=
  ⟨by decide, (read_pair_file_shared_src_views pairsFix 3 (by decide)).1
    ((read_pair_file pairsFix 3).getD 0 (0, [])) (by decide)⟩

/-- Witness for C9 at concrete fixtures: a below-percentile row is kept,
and a cloud of equal-norm rows filters to empty. -/
theorem remove_outlier_strict_percentile_witness :
    ((3, 4, 0) : ℚ × ℚ × ℚ) ∈ remove_outlier_points pcFix magsFix ∧
    remove_outlier_points pcConstFix magsConstFix = [] := by
  have hlen1 : magsFix.length = pcFix.length := rfl
  have hmag1 : ∀ i, i < pcFix.length → 0 ≤ magsFix.getD i 0 ∧
      (magsFix.getD i 0) ^ 2 = sqNorm (pcFix.getD i (0, 0, 0)) := by
    intro i hi
    have hi4 : i < 4 := hi
    interval_cases i <;> constructor <;>
      norm_num [magsFix, pcFix, sqNorm, List.getD_cons_zero,
        List.getD_cons_succ]
  have hperc : np_percentile magsFix OUTLIER_DISTANCE_PERCENTILE = 59 / 5 := by
    have hs : insertionSort (fun a b : ℚ => decide (a ≤ b)) magsFix =
        [1, 5, 5, 13] := by decide
    have hh : (95 : ℚ) / 100 * ((magsFix.length : ℚ) - 1) = 57 / 20 := by
      norm_num [magsFix]
    have hf : ⌊(57 / 20 : ℚ)⌋ = 2 := by
      rw [Int.floor_eq_iff]
      norm_num
    have ht : Int.toNat 2 = 2 := rfl
    simp only [OUTLIER_DISTANCE_PERCENTILE, np_percentile, hs, hh, hf, ht]
    norm_num
  constructor
  · refine ((remove_outlier_strict_percentile pcFix magsFix hlen1 hmag1).1
      (3, 4, 0)).mpr ⟨0, by decide, rfl, ?_⟩
    rw [hperc]
    show (5 : ℚ) < 59 / 5
    norm_num
  · have hmlen : magsConstFix.length = pcConstFix.length := rfl
    have hmag2 : ∀ i, i < pcConstFix.length → 0 ≤ magsConstFix.getD i 0 ∧
        (magsConstFix.getD i 0) ^ 2 = sqNorm (pcConstFix.getD i (0, 0, 0)) := by
      intro i hi
      have hi2 : i < 2 := hi
      interval_cases i <;> constructor <;>
        norm_num [magsConstFix, pcConstFix, sqNorm, List.getD_cons_zero,
          List.getD_cons_succ]
    refine (remove_outlier_strict_percentile pcConstFix magsConstFix hmlen
      hmag2).2 5 ?_ ?_
    · intro m hm
      simp only [magsConstFix, List.mem_cons, List.not_mem_nil,
        or_false] at hm
      rcases hm with rfl | rfl <;> rfl
    · simp [pcConstFix]

/-- Witness for C10 at concrete fixtures: responseless keypoints pass
through unchanged, and with responses at most max_keypoints remain. -/
theorem filter_by_response_spec_witness :
    ddbFix.filter_by_response kpNoRespFix descsFix =
      (kpNoRespFix, descsFix) ∧
    (ddbFix.filter_by_response kpRespFix descsFix).1.coordinates.length ≤
      ddbFix.max_keypoints :=
  ⟨(filter_by_response_spec ddbFix kpNoRespFix descsFix).1 rfl,
   ((filter_by_response_spec ddbFix kpRespFix descsFix).2 [1, 5, 3] rfl).1⟩

end GtsfmVerify
